import Mathlib

/-!
Shallow embedding of the OrgManager membership and invitation actions
(`src/actions/auth.ts`) and of the permission utilities
(`src/lib/utils/permissions.ts`).

Persistence (Supabase) is modelled as an explicit in-memory database value.
Each fallible persistence write consumes the head of an explicit `faults`
schedule (`true` = the write succeeds; an exhausted schedule means success),
mirroring exactly the places where the TypeScript code receives an `error`
field back from a Supabase call.  Writes whose error the code ignores
(a bare `await`) still consume a schedule entry, and the state is updated
only when the write succeeded.
-/

namespace OrgManager

/-- Organization roles (`OrganizationRole` in `src/lib/types/auth.ts`). -/
inductive Role where
  | owner
  | admin
  | user
  | viewer
deriving DecidableEq, Repr

/-- Invitation lifecycle states (`InvitationStatus` in `src/lib/types/auth.ts`). -/
inductive InvitationStatus where
  | pending
  | accepted
  | expired
deriving DecidableEq, Repr

/-- A row of the `organization_members` table. -/
structure Membership where
  id : Nat
  organization_id : Nat
  user_id : Nat
  role : Role
deriving DecidableEq, Repr

/-- A row of the `invitations` table.  Timestamps and tokens are numbers. -/
structure Invitation where
  id : Nat
  organization_id : Nat
  inviter_id : Nat
  invitee_email : String
  role : Role
  status : InvitationStatus
  token : Nat
  expires_at : Nat
  created_at : Nat
deriving DecidableEq, Repr

/-- A row of the `users` table (only the columns the actions read). -/
structure UserRec where
  id : Nat
  email : String
deriving DecidableEq, Repr

/-- The persistence state visible to the actions.  `nextId` models the
database generating a fresh primary key on insert. -/
structure DB where
  members : List Membership
  invitations : List Invitation
  users : List UserRec
  nextId : Nat
deriving DecidableEq, Repr

/-- One fallible persistence write: succeeds iff the head of the fault
schedule is `true` (an exhausted schedule means success); returns the rest
of the schedule. -/
def takeFault : List Bool → Bool × List Bool
  | [] => (true, [])
  | b :: rest => (b, rest)

/-- Lookup of a membership row by primary key and organization
(`.eq("id", memberId).eq("organization_id", organizationId).single()`). -/
def findMemberById (db : DB) (memberId organizationId : Nat) : Option Membership :=
  db.members.find? (fun m => m.id == memberId && m.organization_id == organizationId)

/-- Lookup of a membership row by organization and user
(`.eq("organization_id", ...).eq("user_id", ...).single()`). -/
def findMemberByUser (db : DB) (organizationId userId : Nat) : Option Membership :=
  db.members.find? (fun m => m.organization_id == organizationId && m.user_id == userId)

/-- Lookup of the acting owner's membership row, as `transferOwnership` and
`isOwner` do (`.eq("organization_id", ...).eq("user_id", ...).eq("role", "owner")`). -/
def findOwnerMember (db : DB) (organizationId userId : Nat) : Option Membership :=
  db.members.find? (fun m =>
    m.organization_id == organizationId && m.user_id == userId && m.role == Role.owner)

/-- `isMember` from `src/lib/utils/permissions.ts`. -/
def isMember (db : DB) (userId organizationId : Nat) : Bool :=
  (findMemberByUser db organizationId userId).isSome

/-- `isOwner` from `src/lib/utils/permissions.ts`: fetches the row filtered by
`role = "owner"` and then re-checks the role of the returned row. -/
def isOwner (db : DB) (userId organizationId : Nat) : Bool :=
  match findOwnerMember db organizationId userId with
  | some m => m.role == Role.owner
  | none => false

/-- `isAdminOrOwner` from `src/lib/utils/permissions.ts`. -/
def isAdminOrOwner (db : DB) (userId organizationId : Nat) : Bool :=
  match db.members.find? (fun m =>
      m.organization_id == organizationId && m.user_id == userId &&
      (m.role == Role.owner || m.role == Role.admin)) with
  | some m => m.role == Role.owner || m.role == Role.admin
  | none => false

/-- `canInviteMembers` from `src/lib/utils/permissions.ts`. -/
def canInviteMembers (db : DB) (userId organizationId : Nat) : Bool :=
  isAdminOrOwner db userId organizationId

/-- Result shape of `canChangeRole`. -/
structure ChangeRoleDecision where
  canChange : Bool
  reason : Option String
deriving DecidableEq, Repr

/-- The role-table core of `canChangeRole` (`src/lib/utils/permissions.ts`,
lines 129-162), once both membership rows have been fetched. -/
def canChangeRoleCore (currentUserRole targetUserRole newRole : Role) : ChangeRoleDecision :=
  if currentUserRole == Role.owner then
    if targetUserRole == Role.owner && !(newRole == Role.owner) then
      ⟨true, none⟩
    else if targetUserRole == Role.owner && newRole == Role.owner then
      ⟨false, some "Organization already has an owner"⟩
    else
      ⟨true, none⟩
  else if currentUserRole == Role.admin then
    if targetUserRole == Role.owner || targetUserRole == Role.admin then
      ⟨false, some "Admins cannot modify owners or other admins"⟩
    else if newRole == Role.owner || newRole == Role.admin then
      ⟨false, some "Admins cannot assign owner or admin roles"⟩
    else
      ⟨true, none⟩
  else
    ⟨false, some "You don\x27t have permission to change member roles"⟩

/-- `canChangeRole` from `src/lib/utils/permissions.ts`: fetches the acting
and target membership rows, then applies the role table. -/
def canChangeRole (db : DB) (userId organizationId targetUserId : Nat)
    (newRole : Role) : ChangeRoleDecision :=
  match findMemberByUser db organizationId userId with
  | none => ⟨false, some "You are not a member of this organization"⟩
  | some currentUserMember =>
    match findMemberByUser db organizationId targetUserId with
    | none => ⟨false, some "Target user is not a member of this organization"⟩
    | some targetMember =>
      canChangeRoleCore currentUserMember.role targetMember.role newRole

/-- Result shape of `canRemoveMember`. -/
structure RemoveDecision where
  canRemove : Bool
  reason : Option String
deriving DecidableEq, Repr

/-- `canRemoveMember` from `src/lib/utils/permissions.ts`. -/
def canRemoveMember (db : DB) (userId organizationId targetUserId : Nat) : RemoveDecision :=
  if userId == targetUserId then
    if isOwner db userId organizationId then
      ⟨false, some "Owners must transfer ownership before leaving the organization"⟩
    else
      ⟨true, none⟩
  else
    match findMemberByUser db organizationId userId with
    | none => ⟨false, some "You are not a member of this organization"⟩
    | some currentUserMember =>
      match findMemberByUser db organizationId targetUserId with
      | none => ⟨false, some "Target user is not a member of this organization"⟩
      | some targetMember =>
        if currentUserMember.role == Role.owner then
          if targetMember.role == Role.owner then
            ⟨false, some "Cannot remove the owner. Transfer ownership first."⟩
          else
            ⟨true, none⟩
        else if currentUserMember.role == Role.admin then
          if targetMember.role == Role.owner || targetMember.role == Role.admin then
            ⟨false, some "Admins cannot remove owners or other admins"⟩
          else
            ⟨true, none⟩
        else
          ⟨false, some "You don\x27t have permission to remove members"⟩

/-- Result shape of `canTransferOwnership`. -/
structure TransferDecision where
  canTransfer : Bool
  reason : Option String
deriving DecidableEq, Repr

/-- `canTransferOwnership` from `src/lib/utils/permissions.ts`. -/
def canTransferOwnership (db : DB) (userId organizationId targetUserId : Nat) : TransferDecision :=
  if !(isOwner db userId organizationId) then
    ⟨false, some "Only owners can transfer ownership"⟩
  else if userId == targetUserId then
    ⟨false, some "Cannot transfer ownership to yourself"⟩
  else if (findMemberByUser db organizationId targetUserId).isNone then
    ⟨false, some "Target user is not a member of this organization"⟩
  else
    ⟨true, none⟩

/-- `update({ role }).eq("id", memberId).eq("organization_id", organizationId)`
on the `organization_members` table. -/
def updateMemberRole (db : DB) (memberId organizationId : Nat) (r : Role) : DB :=
  { db with
    members := db.members.map (fun m =>
      if m.id == memberId && m.organization_id == organizationId then
        { m with role := r }
      else m) }

/-- Record of one attempted role-update write during an ownership transfer. -/
structure UpdateRec where
  member_id : Nat
  new_role : Role
  ok : Bool
deriving DecidableEq, Repr

/-- Result of `transferOwnership`: final state, the caller-visible `error`
field, the role-update writes in the order they were attempted, and the
persisted state after each attempted write. -/
structure TransferOutcome where
  db : DB
  error : Option String
  writes : List UpdateRec
  states : List DB
deriving DecidableEq, Repr

/-- `transferOwnership` from `src/actions/auth.ts` (the member-management
actions file).  Step 1 demotes the old owner to admin, step 2 promotes the
target member to owner; if step 2 fails, a compensating write restores the
old owner, but its own error result is discarded by the code. -/
def transferOwnership (db : DB) (organizationId actorUserId newOwnerMemberId : Nat)
    (faults : List Bool) : TransferOutcome :=
  if !(isMember db actorUserId organizationId) then
    ⟨db, some "You don\x27t have access to this organization", [], []⟩
  else
    match findMemberById db newOwnerMemberId organizationId with
    | none => ⟨db, some "Member not found", [], []⟩
    | some newOwnerMember =>
      let check := canTransferOwnership db actorUserId organizationId newOwnerMember.user_id
      if !check.canTransfer then
        ⟨db, some (check.reason.getD "You don\x27t have permission to transfer ownership"), [], []⟩
      else
        match findOwnerMember db organizationId actorUserId with
        | none => ⟨db, some "Owner member record not found", [], []⟩
        | some oldOwnerMember =>
          let s1 := takeFault faults
          if !s1.1 then
            ⟨db, some "Failed to transfer ownership. Please try again.",
              [⟨oldOwnerMember.id, Role.admin, false⟩], [db]⟩
          else
            let db1 := updateMemberRole db oldOwnerMember.id organizationId Role.admin
            let s2 := takeFault s1.2
            if !s2.1 then
              let s3 := takeFault s2.2
              let db2 :=
                if s3.1 then updateMemberRole db1 oldOwnerMember.id organizationId Role.owner
                else db1
              ⟨db2, some "Failed to transfer ownership. Please try again.",
                [⟨oldOwnerMember.id, Role.admin, true⟩,
                 ⟨newOwnerMemberId, Role.owner, false⟩,
                 ⟨oldOwnerMember.id, Role.owner, s3.1⟩],
                [db1, db1, db2]⟩
            else
              let db2 := updateMemberRole db1 newOwnerMemberId organizationId Role.owner
              ⟨db2, none,
                [⟨oldOwnerMember.id, Role.admin, true⟩,
                 ⟨newOwnerMemberId, Role.owner, true⟩],
                [db1, db2]⟩

/-- `changeMemberRole` from `src/actions/auth.ts`: membership check, target
lookup, permission check, then the dedicated guard that role changes to
`owner` must go through `transferOwnership`, and finally the role update. -/
def changeMemberRole (db : DB) (organizationId actorUserId memberId : Nat)
    (newRole : Role) (faults : List Bool) : DB × Option String :=
  if !(isMember db actorUserId organizationId) then
    (db, some "You don\x27t have access to this organization")
  else
    match findMemberById db memberId organizationId with
    | none => (db, some "Member not found")
    | some member =>
      let check := canChangeRole db actorUserId organizationId member.user_id newRole
      if !check.canChange then
        (db, some (check.reason.getD "You don\x27t have permission to change this role"))
      else if newRole == Role.owner then
        (db, some "Use transfer ownership to change a member to owner")
      else
        let s := takeFault faults
        if !s.1 then (db, some "Failed to update member role. Please try again.")
        else (updateMemberRole db memberId organizationId newRole, none)

/-- Model of the JavaScript `toLowerCase()` used by the actions, taken on
the character data of the string (`String.toLower` itself is opaque to
kernel reduction, so the per-character map is applied to `String.data`). -/
def strLower (s : String) : String :=
  ⟨s.data.map Char.toLower⟩

/-- Model of the JavaScript `trim()` used by `inviteMember`: drop
whitespace from both ends of the string. -/
def strTrim (s : String) : String :=
  ⟨((s.data.dropWhile Char.isWhitespace).reverse.dropWhile Char.isWhitespace).reverse⟩

/-- `update({ status }).eq("id", invitationId)` on the `invitations` table. -/
def setInvitationStatusById (db : DB) (invitationId : Nat) (s : InvitationStatus) : DB :=
  { db with
    invitations := db.invitations.map (fun i =>
      if i.id == invitationId then { i with status := s } else i) }

/-- `update({ status }).eq("token", token)` on the `invitations` table. -/
def setInvitationStatusByToken (db : DB) (tok : Nat) (s : InvitationStatus) : DB :=
  { db with
    invitations := db.invitations.map (fun i =>
      if i.token == tok then { i with status := s } else i) }

/-- The invitation sweep: `update({ status: "accepted" })` filtered by
organization, invitee email and `status = "pending"`. -/
def sweepAcceptInvitations (db : DB) (organizationId : Nat) (email : String) : DB :=
  { db with
    invitations := db.invitations.map (fun i =>
      if i.organization_id == organizationId && i.invitee_email == email &&
          i.status == InvitationStatus.pending then
        { i with status := InvitationStatus.accepted }
      else i) }

/-- `insert({ organization_id, user_id, role })` on `organization_members`;
the database assigns the fresh primary key. -/
def insertMember (db : DB) (organizationId userId : Nat) (r : Role) : DB :=
  { db with
    members := db.members ++ [⟨db.nextId, organizationId, userId, r⟩],
    nextId := db.nextId + 1 }

/-- Result of the two invitation-acceptance actions: final state, the
caller-visible `error` field and the returned `organizationId`. -/
structure AcceptOutcome where
  db : DB
  error : Option String
  organizationId : Option Nat
deriving DecidableEq, Repr

/-- `acceptInvitation` (accept by invitation id) from `src/actions/auth.ts`.
The lookup requires an exact `invitee_email` match and `status = "pending"`.
The interpolated Supabase message in the critical branch is modelled by its
fixed prefix and suffix. -/
def acceptInvitation (db : DB) (userId : Nat) (userEmail : String)
    (invitationId : Nat) (now : Nat) (faults : List Bool) : AcceptOutcome :=
  match db.invitations.find? (fun i =>
      i.id == invitationId && i.invitee_email == userEmail &&
      i.status == InvitationStatus.pending) with
  | none => ⟨db, some "Invitation not found or has expired", none⟩
  | some invitation =>
    if invitation.expires_at < now then
      -- the error of this write is ignored by the code (bare await)
      let s := takeFault faults
      let db1 := if s.1 then setInvitationStatusById db invitationId InvitationStatus.expired else db
      ⟨db1, some "This invitation has expired", none⟩
    else if (findMemberByUser db invitation.organization_id userId).isSome then
      -- short-circuit: sweep all pending invitations for (org, email); write error ignored
      let s := takeFault faults
      let db1 := if s.1 then sweepAcceptInvitations db invitation.organization_id userEmail else db
      ⟨db1, some "You are already a member of this organization", some invitation.organization_id⟩
    else
      let s1 := takeFault faults
      if !s1.1 then ⟨db, some "Failed to accept invitation. Please try again.", none⟩
      else
        let db1 := insertMember db invitation.organization_id userId invitation.role
        let s2 := takeFault s1.2
        if !s2.1 then
          ⟨db1, some "Failed to mark invitation as accepted. Please contact support.", none⟩
        else if (db1.invitations.filter (fun i => i.id == invitationId)).isEmpty then
          ⟨db1, some "Failed to mark invitation as accepted. No rows were updated. Please contact support.", none⟩
        else
          let db2 := setInvitationStatusById db1 invitationId InvitationStatus.accepted
          let s3 := takeFault s2.2
          let db3 := if s3.1 then sweepAcceptInvitations db2 invitation.organization_id userEmail else db2
          ⟨db3, none, some invitation.organization_id⟩

/-- `acceptInvitationByToken` from `src/actions/auth.ts`.  The lookup is by
token with `status = "pending"`, and the email match is case-insensitive. -/
def acceptInvitationByToken (db : DB) (userId : Nat) (userEmail : String)
    (tok : Nat) (now : Nat) (faults : List Bool) : AcceptOutcome :=
  match db.invitations.find? (fun i =>
      i.token == tok && i.status == InvitationStatus.pending) with
  | none => ⟨db, some "Invitation not found or has already been used", none⟩
  | some invitation =>
    if !(strLower invitation.invitee_email == strLower userEmail) then
      ⟨db, some "This invitation was sent to a different email address", none⟩
    else if invitation.expires_at < now then
      let s := takeFault faults
      let db1 := if s.1 then setInvitationStatusByToken db tok InvitationStatus.expired else db
      ⟨db1, some "This invitation has expired", none⟩
    else if (findMemberByUser db invitation.organization_id userId).isSome then
      -- short-circuit: sweep, then a success result (unlike the by-id action)
      let s := takeFault faults
      let db1 := if s.1 then sweepAcceptInvitations db invitation.organization_id userEmail else db
      ⟨db1, none, some invitation.organization_id⟩
    else
      let s1 := takeFault faults
      if !s1.1 then ⟨db, some "Failed to accept invitation. Please try again.", none⟩
      else
        let db1 := insertMember db invitation.organization_id userId invitation.role
        let s2 := takeFault s1.2
        if !s2.1 then
          ⟨db1, some "Failed to mark invitation as accepted. Please contact support.", none⟩
        else if (db1.invitations.filter (fun i => i.token == tok)).isEmpty then
          ⟨db1, some "Failed to mark invitation as accepted. No rows were updated. Please contact support.", none⟩
        else
          let db2 := setInvitationStatusByToken db1 tok InvitationStatus.accepted
          let s3 := takeFault s2.2
          let db3 := if s3.1 then sweepAcceptInvitations db2 invitation.organization_id userEmail else db2
          ⟨db3, none, some invitation.organization_id⟩

/-- `declineInvitation` from `src/actions/auth.ts`: verifies the pending
invitation belongs to the caller, then sets its status to `expired`. -/
def declineInvitation (db : DB) (userEmail : String) (invitationId : Nat)
    (faults : List Bool) : DB × Option String :=
  match db.invitations.find? (fun i =>
      i.id == invitationId && i.invitee_email == userEmail &&
      i.status == InvitationStatus.pending) with
  | none => (db, some "Invitation not found")
  | some _ =>
    let s := takeFault faults
    if !s.1 then (db, some "Failed to decline invitation. Please try again.")
    else (setInvitationStatusById db invitationId InvitationStatus.expired, none)

/-- `cancelInvitation` from `src/actions/auth.ts`: membership check, pending
invitation lookup, inviter-or-admin-or-owner check, then status `expired`. -/
def cancelInvitation (db : DB) (organizationId actorUserId invitationId : Nat)
    (faults : List Bool) : DB × Option String :=
  if !(isMember db actorUserId organizationId) then
    (db, some "You don\x27t have access to this organization")
  else
    match db.invitations.find? (fun i =>
        i.id == invitationId && i.organization_id == organizationId &&
        i.status == InvitationStatus.pending) with
    | none => (db, some "Invitation not found")
    | some invitation =>
      match findMemberByUser db organizationId actorUserId with
      | none => (db, some "You don\x27t have permission to cancel this invitation")
      | some member =>
        if !(member.role == Role.owner) && !(member.role == Role.admin) &&
            !(invitation.inviter_id == actorUserId) then
          (db, some "You don\x27t have permission to cancel this invitation")
        else
          let s := takeFault faults
          if !s.1 then (db, some "Failed to cancel invitation. Please try again.")
          else (setInvitationStatusById db invitationId InvitationStatus.expired, none)

/-- `getPendingInvitations` from `src/actions/auth.ts`: pending, unexpired
invitations for the user's email, minus any invitation whose organization the
user is already a member of or has an accepted invitation for.  The
presentation-only `created_at` ordering is not modelled. -/
def getPendingInvitations (db : DB) (userId : Nat) (userEmail : String)
    (now : Nat) : List Invitation :=
  let data := db.invitations.filter (fun i =>
    i.invitee_email == userEmail && i.status == InvitationStatus.pending &&
    decide (now < i.expires_at))
  if data.isEmpty then data
  else
    let organizationIds := data.map Invitation.organization_id
    let memberOrgIds := (db.members.filter (fun m =>
      m.user_id == userId && organizationIds.contains m.organization_id)).map
        Membership.organization_id
    let acceptedOrgIds := (db.invitations.filter (fun i =>
      i.invitee_email == userEmail && i.status == InvitationStatus.accepted &&
      organizationIds.contains i.organization_id)).map Invitation.organization_id
    data.filter (fun inv =>
      !(memberOrgIds.contains inv.organization_id) &&
      !(acceptedOrgIds.contains inv.organization_id))

/-- `removeMember` from `src/actions/auth.ts`: permission checks, member
deletion, then the protective re-assertion of `accepted` status on the
removed member's accepted invitations (whose failure is only logged). -/
def removeMember (db : DB) (organizationId actorUserId memberId : Nat)
    (faults : List Bool) : DB × Option String :=
  if !(isMember db actorUserId organizationId) then
    (db, some "You don\x27t have access to this organization")
  else
    match findMemberById db memberId organizationId with
    | none => (db, some "Member not found")
    | some member =>
      let check := canRemoveMember db actorUserId organizationId member.user_id
      if !check.canRemove then
        (db, some (check.reason.getD "You don\x27t have permission to remove this member"))
      else
        let memberEmail := (db.users.find? (fun u => u.id == member.user_id)).map UserRec.email
        let s1 := takeFault faults
        if !s1.1 then (db, some "Failed to remove member. Please try again.")
        else
          let db1 := { db with
            members := db.members.filter (fun m =>
              !(m.id == memberId && m.organization_id == organizationId)) }
          match memberEmail with
          | none => (db1, none)
          | some email =>
            let acceptedIds := (db1.invitations.filter (fun i =>
                i.organization_id == organizationId && i.invitee_email == email &&
                i.status == InvitationStatus.accepted)).map Invitation.id
            if acceptedIds.isEmpty then (db1, none)
            else
              let s2 := takeFault s1.2
              let db2 :=
                if s2.1 then
                  { db1 with
                    invitations := db1.invitations.map (fun i =>
                      if i.organization_id == organizationId && i.invitee_email == email &&
                          acceptedIds.contains i.id then
                        { i with status := InvitationStatus.accepted }
                      else i) }
                else db1
              (db2, none)

/-- `email.toLowerCase().trim()` applied to the submitted invitee email in
`inviteMember` before validation and storage. -/
def normalizeEmail (e : String) : String :=
  strTrim (strLower e)

/-- The `z.enum(["admin", "user", "viewer"])` role field of
`inviteMemberSchema` in `src/actions/auth.ts`. -/
def parseInvitedRole (s : String) : Option Role :=
  if s == "admin" then some Role.admin
  else if s == "user" then some Role.user
  else if s == "viewer" then some Role.viewer
  else none

/-- Abstraction of the zod `z.string().email()` format check of
`inviteMemberSchema`.  Only the fact that it is a pure predicate on the
already-normalized string matters for the claims settled here. -/
def emailSchemaOk (e : String) : Bool :=
  e.data.contains '@' && !(e.data.isEmpty) && !(e.data.contains ' ')

/-- Result of `inviteMember`: final state, the caller-visible `error` field
and the returned `invitationId`. -/
structure InviteOutcome where
  db : DB
  error : Option String
  invitationId : Option Nat
deriving DecidableEq, Repr

/-- `inviteMember` from `src/actions/auth.ts`.  The submitted email is
lowercased and trimmed before validation, duplicate checks and storage.
`now` and timestamps are in milliseconds; the invitation expires 7 days
after creation.  The notification email is fire-and-forget and does not
affect the result, so it is not modelled. -/
def inviteMember (db : DB) (organizationId actorUserId : Nat)
    (rawEmail roleStr : String) (now newToken : Nat)
    (faults : List Bool) : InviteOutcome :=
  if !(canInviteMembers db actorUserId organizationId) then
    ⟨db, some "Only owners and admins can invite members", none⟩
  else if !(isMember db actorUserId organizationId) then
    ⟨db, some "You don\x27t have access to this organization", none⟩
  else
    let email := normalizeEmail rawEmail
    match parseInvitedRole roleStr with
    | none => ⟨db, some "Invalid role", none⟩
    | some invitedRole =>
      if !(emailSchemaOk email) then ⟨db, some "Invalid email address", none⟩
      else
        let currentUserRole := (findMemberByUser db organizationId actorUserId).map Membership.role
        if currentUserRole == some Role.admin && invitedRole == Role.admin then
          ⟨db, some "Admins cannot invite other admins. Only owners can invite admins.", none⟩
        else
          let alreadyMember :=
            match db.users.find? (fun u => u.email == email) with
            | some existingUser => (findMemberByUser db organizationId existingUser.id).isSome
            | none => false
          if alreadyMember then
            ⟨db, some "User is already a member of this organization", none⟩
          else if (db.invitations.find? (fun i =>
              i.organization_id == organizationId && i.invitee_email == email &&
              i.status == InvitationStatus.pending)).isSome then
            ⟨db, some "There is already a pending invitation for this email", none⟩
          else
            let s := takeFault faults
            if !s.1 then ⟨db, some "Failed to create invitation. Please try again.", none⟩
            else
              let inv : Invitation :=
                ⟨db.nextId, organizationId, actorUserId, email, invitedRole,
                 InvitationStatus.pending, newToken, now + 7 * 86400000, now⟩
              ⟨{ db with
                  invitations := db.invitations ++ [inv],
                  nextId := db.nextId + 1 },
                none, some inv.id⟩

/-! ### Helper lemmas about the lookups and updates -/

theorem find?_eq_some_of_unique {α : Type _} {p : α → Bool} {l : List α} {a : α}
    (ha : a ∈ l) (hpa : p a = true)
    (huniq : ∀ b ∈ l, p b = true → b = a) :
    l.find? p = some a := by
  induction l with
  | nil => cases ha
  | cons x xs ih =>
    rcases List.mem_cons.mp ha with hax | hat
    · subst hax
      rw [List.find?_cons_of_pos _ hpa]
    · by_cases hx : p x = true
      · have hxa := huniq x (List.mem_cons_self x xs) hx
        subst hxa
        rw [List.find?_cons_of_pos _ hx]
      · rw [List.find?_cons_of_neg _ (by simpa using hx)]
        exact ih hat (fun b hb hpb => huniq b (List.mem_cons_of_mem x hb) hpb)

theorem findOwnerMember_spec {db : DB} {organizationId userId : Nat} {om : Membership}
    (h : findOwnerMember db organizationId userId = some om) :
    om ∈ db.members ∧ om.organization_id = organizationId ∧
      om.user_id = userId ∧ om.role = Role.owner := by
  have hm := List.mem_of_find?_eq_some h
  have hp := List.find?_some h
  simp only [Bool.and_eq_true, beq_iff_eq] at hp
  exact ⟨hm, hp.1.1, hp.1.2, hp.2⟩

theorem findMemberById_spec {db : DB} {memberId organizationId : Nat} {m : Membership}
    (h : findMemberById db memberId organizationId = some m) :
    m ∈ db.members ∧ m.id = memberId ∧ m.organization_id = organizationId := by
  have hm := List.mem_of_find?_eq_some h
  have hp := List.find?_some h
  simp only [Bool.and_eq_true, beq_iff_eq] at hp
  exact ⟨hm, hp.1, hp.2⟩

theorem findMemberByUser_isSome_of_mem {db : DB} {organizationId userId : Nat}
    {m : Membership} (hm : m ∈ db.members)
    (h1 : m.organization_id = organizationId) (h2 : m.user_id = userId) :
    (findMemberByUser db organizationId userId).isSome = true := by
  simp only [findMemberByUser, List.find?_isSome]
  exact ⟨m, hm, by simp [h1, h2]⟩

theorem isMember_true_of_mem {db : DB} {organizationId userId : Nat}
    {m : Membership} (hm : m ∈ db.members)
    (h1 : m.organization_id = organizationId) (h2 : m.user_id = userId) :
    isMember db userId organizationId = true :=
  findMemberByUser_isSome_of_mem hm h1 h2

theorem isOwner_true_of_findOwnerMember {db : DB} {organizationId userId : Nat}
    {om : Membership} (h : findOwnerMember db organizationId userId = some om) :
    isOwner db userId organizationId = true := by
  have hrole := (findOwnerMember_spec h).2.2.2
  unfold isOwner
  rw [h]
  simp [hrole]

theorem canTransferOwnership_valid {db : DB} {organizationId actorUserId : Nat}
    {om tm : Membership}
    (hOld : findOwnerMember db organizationId actorUserId = some om)
    (htm : tm ∈ db.members) (h1 : tm.organization_id = organizationId)
    (hNe : tm.user_id ≠ actorUserId) :
    canTransferOwnership db actorUserId organizationId tm.user_id = ⟨true, none⟩ := by
  unfold canTransferOwnership
  rw [isOwner_true_of_findOwnerMember hOld]
  have h2 : (actorUserId == tm.user_id) = false := by
    simp [Ne.symm hNe]
  have h3 : (findMemberByUser db organizationId tm.user_id).isNone = false := by
    have h4 := findMemberByUser_isSome_of_mem htm h1 rfl
    cases hfind : findMemberByUser db organizationId tm.user_id with
    | none => rw [hfind] at h4; simp at h4
    | some x => simp
  simp [h2, h3]

/-! ### C9 -/

/-- C9: for an admin actor, the role table of `canChangeRole` allows a
change iff both the target's current role and the requested new role lie in
{user, viewer}; in particular a target of owner or admin is always denied,
and a requested new role of owner or admin is always denied. -/
theorem admin_canChangeRole_iff (targetRole newRole : Role) :
    (canChangeRoleCore Role.admin targetRole newRole).canChange = true ↔
      ((targetRole = Role.user ∨ targetRole = Role.viewer) ∧
       (newRole = Role.user ∨ newRole = Role.viewer)) := by
  cases targetRole <;> cases newRole <;> decide

/-! ### C4 -/

/-- Concrete fixture: organization 1 with owner (user 1, membership 10) and
an admin (user 2, membership 20). -/
def c4db : DB :=
  ⟨[⟨10, 1, 1, Role.owner⟩, ⟨20, 1, 2, Role.admin⟩], [], [], 0⟩

/-- C4 counterexample: the `canChangeRole` decision function itself grants a
role change to `owner` when the actor is the owner and the target is an
admin, so the change to `owner` is not "always denied through the
canChangeRole decision function". -/
theorem canChangeRole_grants_owner :
    canChangeRole c4db 1 1 2 Role.owner = ⟨true, none⟩ := by decide

/-- C4 (amended): `canChangeRole` itself may return `canChange = true` for a
request with `newRole = owner` (owner actor, non-owner target), but the
`changeMemberRole` action denies every such request after the permission
check: it always reports an error and never modifies the database, so the
role-change path never sets any membership to `owner`. -/
theorem changeMemberRole_never_grants_owner
    (db : DB) (organizationId actorUserId memberId : Nat) (faults : List Bool) :
    (changeMemberRole db organizationId actorUserId memberId Role.owner faults).2.isSome = true ∧
    (changeMemberRole db organizationId actorUserId memberId Role.owner faults).1 = db := by
  unfold changeMemberRole
  split
  · exact ⟨rfl, rfl⟩
  split
  · exact ⟨rfl, rfl⟩
  simp only [beq_self_eq_true]
  split <;> simp

/-! ### C1 -/

/-- C1: for every valid transfer (the actor holds the owner membership row
`om` and the target is a distinct existing member), `transferOwnership`
first writes the old owner's role to `admin` and then writes the target
membership's role to `owner`, in that order; if the second write fails
after the first succeeded, it issues a compensating write restoring the old
owner's role to `owner` and reports a failure to the caller. -/
theorem transferOwnership_twoPhase
    (db : DB) (organizationId actorUserId newOwnerMemberId : Nat)
    (ok2 ok3 : Bool) (rest : List Bool) (nm om : Membership)
    (hNew : findMemberById db newOwnerMemberId organizationId = some nm)
    (hOld : findOwnerMember db organizationId actorUserId = some om)
    (hNe : nm.user_id ≠ actorUserId) :
    (transferOwnership db organizationId actorUserId newOwnerMemberId
        (true :: ok2 :: ok3 :: rest)).writes =
      [⟨om.id, Role.admin, true⟩, ⟨newOwnerMemberId, Role.owner, ok2⟩] ++
        (if ok2 then [] else [⟨om.id, Role.owner, ok3⟩]) ∧
    (transferOwnership db organizationId actorUserId newOwnerMemberId
        (true :: ok2 :: ok3 :: rest)).error =
      (if ok2 then none
       else some "Failed to transfer ownership. Please try again.") ∧
    (ok2 = false → ok3 = true →
      (transferOwnership db organizationId actorUserId newOwnerMemberId
          (true :: ok2 :: ok3 :: rest)).db =
        updateMemberRole (updateMemberRole db om.id organizationId Role.admin)
          om.id organizationId Role.owner) := by
  have hm := findOwnerMember_spec hOld
  have hn := findMemberById_spec hNew
  have hMem : isMember db actorUserId organizationId = true :=
    isMember_true_of_mem hm.1 hm.2.1 hm.2.2.1
  have hCan : canTransferOwnership db actorUserId organizationId nm.user_id = ⟨true, none⟩ :=
    canTransferOwnership_valid hOld hn.1 hn.2.2 hNe
  unfold transferOwnership
  rw [hMem, hNew]
  simp only [hCan, hOld, takeFault]
  cases ok2 <;> cases ok3 <;> simp [takeFault]

/-- Concrete fixture: organization 1 with owner (user 1, membership 10) and
a viewer (user 2, membership 20). -/
def exDB : DB :=
  ⟨[⟨10, 1, 1, Role.owner⟩, ⟨20, 1, 2, Role.viewer⟩], [],
   [⟨1, "o@x.com"⟩, ⟨2, "m@x.com"⟩], 100⟩

theorem transferOwnership_twoPhase_witness :
    findMemberById exDB 20 1 = some ⟨20, 1, 2, Role.viewer⟩ ∧
    findOwnerMember exDB 1 1 = some ⟨10, 1, 1, Role.owner⟩ ∧
    (2 : Nat) ≠ 1 ∧
    ((transferOwnership exDB 1 1 20 (true :: false :: true :: [])).writes =
        [⟨10, Role.admin, true⟩, ⟨20, Role.owner, false⟩] ++
          (if false then [] else [⟨10, Role.owner, true⟩]) ∧
      (transferOwnership exDB 1 1 20 (true :: false :: true :: [])).error =
        (if false then none
         else some "Failed to transfer ownership. Please try again.") ∧
      (false = false → true = true →
        (transferOwnership exDB 1 1 20 (true :: false :: true :: [])).db =
          updateMemberRole (updateMemberRole exDB 10 1 Role.admin) 10 1 Role.owner)) :=
  ⟨by decide, by decide, by decide,
   transferOwnership_twoPhase exDB 1 1 20 false true []
     ⟨20, 1, 2, Role.viewer⟩ ⟨10, 1, 1, Role.owner⟩
     (by decide) (by decide) (by decide)⟩

/-! ### C2 -/

/-- C2 counterexample: when the promotion of the new owner fails and the
compensating rollback also fails, `transferOwnership` returns exactly the
same recoverable error result as an ordinary step-one failure — the caller
receives nothing distinguishable, no `Critical` kind. -/
theorem transferOwnership_doubleFailure_cex :
    (transferOwnership exDB 1 1 20 [true, false, false]).error =
      some "Failed to transfer ownership. Please try again." ∧
    (transferOwnership exDB 1 1 20 [true, false, false]).error =
      (transferOwnership exDB 1 1 20 [false]).error := by decide

/-- C2 (amended): for every valid transfer in which the demotion succeeded
and both the promotion and the compensating rollback fail, the action
returns the ordinary recoverable error "Failed to transfer ownership.
Please try again." — identical to the result of a step-one failure; the
rollback failure is silently swallowed and the database is left with the
old owner demoted to admin. -/
theorem transferOwnership_doubleFailure
    (db : DB) (organizationId actorUserId newOwnerMemberId : Nat) (rest : List Bool)
    (nm om : Membership)
    (hNew : findMemberById db newOwnerMemberId organizationId = some nm)
    (hOld : findOwnerMember db organizationId actorUserId = some om)
    (hNe : nm.user_id ≠ actorUserId) :
    (transferOwnership db organizationId actorUserId newOwnerMemberId
        (true :: false :: false :: rest)).error =
      some "Failed to transfer ownership. Please try again." ∧
    (transferOwnership db organizationId actorUserId newOwnerMemberId
        (true :: false :: false :: rest)).error =
      (transferOwnership db organizationId actorUserId newOwnerMemberId [false]).error ∧
    (transferOwnership db organizationId actorUserId newOwnerMemberId
        (true :: false :: false :: rest)).db =
      updateMemberRole db om.id organizationId Role.admin := by
  have hm := findOwnerMember_spec hOld
  have hn := findMemberById_spec hNew
  have hMem : isMember db actorUserId organizationId = true :=
    isMember_true_of_mem hm.1 hm.2.1 hm.2.2.1
  have hCan : canTransferOwnership db actorUserId organizationId nm.user_id = ⟨true, none⟩ :=
    canTransferOwnership_valid hOld hn.1 hn.2.2 hNe
  unfold transferOwnership
  rw [hMem, hNew]
  simp [hCan, hOld, takeFault]

theorem transferOwnership_doubleFailure_witness :
    findMemberById exDB 20 1 = some ⟨20, 1, 2, Role.viewer⟩ ∧
    findOwnerMember exDB 1 1 = some ⟨10, 1, 1, Role.owner⟩ ∧
    (2 : Nat) ≠ 1 ∧
    ((transferOwnership exDB 1 1 20 (true :: false :: false :: [])).error =
        some "Failed to transfer ownership. Please try again." ∧
      (transferOwnership exDB 1 1 20 (true :: false :: false :: [])).error =
        (transferOwnership exDB 1 1 20 [false]).error ∧
      (transferOwnership exDB 1 1 20 (true :: false :: false :: [])).db =
        updateMemberRole exDB 10 1 Role.admin) :=
  ⟨by decide, by decide, by decide,
   transferOwnership_doubleFailure exDB 1 1 20 []
     ⟨20, 1, 2, Role.viewer⟩ ⟨10, 1, 1, Role.owner⟩
     (by decide) (by decide) (by decide)⟩

/-! ### C3 -/

theorem transferOwnership_success
    (db : DB) (organizationId actorUserId newOwnerMemberId : Nat)
    (nm om : Membership)
    (hNew : findMemberById db newOwnerMemberId organizationId = some nm)
    (hOld : findOwnerMember db organizationId actorUserId = some om)
    (hNe : nm.user_id ≠ actorUserId) :
    transferOwnership db organizationId actorUserId newOwnerMemberId [] =
      ⟨updateMemberRole (updateMemberRole db om.id organizationId Role.admin)
          newOwnerMemberId organizationId Role.owner, none,
        [⟨om.id, Role.admin, true⟩, ⟨newOwnerMemberId, Role.owner, true⟩],
        [updateMemberRole db om.id organizationId Role.admin,
         updateMemberRole (updateMemberRole db om.id organizationId Role.admin)
           newOwnerMemberId organizationId Role.owner]⟩ := by
  have hm := findOwnerMember_spec hOld
  have hn := findMemberById_spec hNew
  have hMem : isMember db actorUserId organizationId = true :=
    isMember_true_of_mem hm.1 hm.2.1 hm.2.2.1
  have hCan : canTransferOwnership db actorUserId organizationId nm.user_id = ⟨true, none⟩ :=
    canTransferOwnership_valid hOld hn.1 hn.2.2 hNe
  unfold transferOwnership
  rw [hMem, hNew]
  simp [hCan, hOld, takeFault]

theorem findMemberById_updateMemberRole (db : DB) (mid organizationId mid2 orgId2 : Nat)
    (r : Role) :
    findMemberById (updateMemberRole db mid organizationId r) mid2 orgId2 =
      (findMemberById db mid2 orgId2).map (fun m =>
        if m.id == mid && m.organization_id == organizationId then
          { m with role := r } else m) := by
  unfold findMemberById updateMemberRole
  rw [List.find?_map]
  have hpf : ((fun m : Membership => m.id == mid2 && m.organization_id == orgId2) ∘
      (fun m => if m.id == mid && m.organization_id == organizationId then
        { m with role := r } else m)) =
      (fun m : Membership => m.id == mid2 && m.organization_id == orgId2) := by
    funext m
    by_cases h : (m.id == mid && m.organization_id == organizationId) = true <;>
      simp [Function.comp, h]
  rw [hpf]

theorem membership_set_role_self {m : Membership} {r : Role} (h : m.role = r) :
    ({ m with role := r } : Membership) = m := by
  cases m
  simp_all

theorem findOwnerMember_map_eq (db db2 : DB) (organizationId mUserId : Nat)
    (g : Membership → Membership) (mm : Membership)
    (hdb2 : db2.members = db.members.map g)
    (hmm : mm ∈ db.members)
    (hpres : ∀ b, (g b).organization_id = b.organization_id ∧ (g b).user_id = b.user_id)
    (hgmm : (g mm).role = Role.owner)
    (horg : mm.organization_id = organizationId) (huser : mm.user_id = mUserId)
    (hMuniq : ∀ m ∈ db.members, m.organization_id = organizationId →
      m.user_id = mUserId → m = mm) :
    findOwnerMember db2 organizationId mUserId = some (g mm) := by
  unfold findOwnerMember
  rw [hdb2, List.find?_map]
  have hfind : db.members.find?
      ((fun m : Membership => m.organization_id == organizationId &&
        m.user_id == mUserId && m.role == Role.owner) ∘ g) = some mm := by
    apply find?_eq_some_of_unique hmm
    · simp [Function.comp, (hpres mm).1, (hpres mm).2, horg, huser, hgmm]
    · intro b hb hqb
      simp only [Function.comp, Bool.and_eq_true, beq_iff_eq] at hqb
      refine hMuniq b hb ?_ ?_
      · rw [← (hpres b).1]; exact hqb.1.1
      · rw [← (hpres b).2]; exact hqb.1.2
  rw [hfind]
  rfl

/-- C3 (amended): for a valid round trip — owner O transfers to member M
(whose membership row is `mm`), then M immediately transfers back to O — both
calls succeed, the organization has an owner in the state persisted between
the two calls, O's original membership row is restored exactly, and M ends
with role `admin` regardless of M's original role (so the original role
assignment of both members is restored only when M was already an admin). -/
theorem transferOwnership_roundTrip
    (db : DB) (organizationId oUserId mUserId : Nat) (om mm : Membership)
    (hOld : findOwnerMember db organizationId oUserId = some om)
    (hOmId : findMemberById db om.id organizationId = some om)
    (hM : findMemberById db mm.id organizationId = some mm)
    (hmu : mm.user_id = mUserId)
    (hMO : mUserId ≠ oUserId)
    (hid : om.id ≠ mm.id)
    (hMuniq : ∀ m ∈ db.members, m.organization_id = organizationId →
      m.user_id = mUserId → m = mm) :
    (transferOwnership db organizationId oUserId mm.id []).error = none ∧
    (∃ m ∈ (transferOwnership db organizationId oUserId mm.id []).db.members,
      m.organization_id = organizationId ∧ m.role = Role.owner) ∧
    (transferOwnership (transferOwnership db organizationId oUserId mm.id []).db
        organizationId mUserId om.id []).error = none ∧
    findMemberById
        (transferOwnership (transferOwnership db organizationId oUserId mm.id []).db
          organizationId mUserId om.id []).db om.id organizationId = some om ∧
    findMemberById
        (transferOwnership (transferOwnership db organizationId oUserId mm.id []).db
          organizationId mUserId om.id []).db mm.id organizationId =
      some { mm with role := Role.admin } := by
  have hm := findOwnerMember_spec hOld
  have hmmSpec := findMemberById_spec hM
  have hNe1 : mm.user_id ≠ oUserId := by rw [hmu]; exact hMO
  have h1 := transferOwnership_success db organizationId oUserId mm.id mm om hM hOld hNe1
  have hmem1 : (updateMemberRole (updateMemberRole db om.id organizationId Role.admin)
      mm.id organizationId Role.owner).members = db.members.map
        ((fun m : Membership =>
          if m.id == mm.id && m.organization_id == organizationId then
            { m with role := Role.owner } else m) ∘
         (fun m : Membership =>
          if m.id == om.id && m.organization_id == organizationId then
            { m with role := Role.admin } else m)) := by
    simp [updateMemberRole, List.map_map]
  have hpres : ∀ b : Membership,
      (((fun m : Membership =>
          if m.id == mm.id && m.organization_id == organizationId then
            { m with role := Role.owner } else m) ∘
        (fun m : Membership =>
          if m.id == om.id && m.organization_id == organizationId then
            { m with role := Role.admin } else m)) b).organization_id = b.organization_id ∧
      (((fun m : Membership =>
          if m.id == mm.id && m.organization_id == organizationId then
            { m with role := Role.owner } else m) ∘
        (fun m : Membership =>
          if m.id == om.id && m.organization_id == organizationId then
            { m with role := Role.admin } else m)) b).user_id = b.user_id := by
    intro b
    by_cases hb1 : (b.id == om.id && b.organization_id == organizationId) = true <;>
      by_cases hb2 : (b.id == mm.id && b.organization_id == organizationId) = true <;>
        simp [Function.comp, hb1, hb2]
  have hgmm : ((fun m : Membership =>
      if m.id == mm.id && m.organization_id == organizationId then
        { m with role := Role.owner } else m) ∘
     (fun m : Membership =>
      if m.id == om.id && m.organization_id == organizationId then
        { m with role := Role.admin } else m)) mm = { mm with role := Role.owner } := by
    simp [Function.comp, Ne.symm hid, hmmSpec.2.2]
  have hOld2 := findOwnerMember_map_eq db
    (updateMemberRole (updateMemberRole db om.id organizationId Role.admin)
      mm.id organizationId Role.owner) organizationId mUserId
    ((fun m : Membership =>
        if m.id == mm.id && m.organization_id == organizationId then
          { m with role := Role.owner } else m) ∘
     (fun m : Membership =>
        if m.id == om.id && m.organization_id == organizationId then
          { m with role := Role.admin } else m)) mm
    hmem1 hmmSpec.1 hpres (by rw [hgmm]) hmmSpec.2.2 hmu hMuniq
  rw [hgmm] at hOld2
  have hmm2spec := findOwnerMember_spec hOld2
  have hNew2 : findMemberById
      (updateMemberRole (updateMemberRole db om.id organizationId Role.admin)
        mm.id organizationId Role.owner) om.id organizationId =
      some { om with role := Role.admin } := by
    rw [findMemberById_updateMemberRole, findMemberById_updateMemberRole, hOmId]
    simp [hm.2.1, hid]
  have hNe2 : ({ om with role := Role.admin } : Membership).user_id ≠ mUserId := by
    simp only []
    rw [hm.2.2.1]
    exact Ne.symm hMO
  have h2 := transferOwnership_success
    (updateMemberRole (updateMemberRole db om.id organizationId Role.admin)
      mm.id organizationId Role.owner) organizationId mUserId om.id
    { om with role := Role.admin } { mm with role := Role.owner } hNew2 hOld2 hNe2
  have hM2 : findMemberById
      (updateMemberRole (updateMemberRole db om.id organizationId Role.admin)
        mm.id organizationId Role.owner) mm.id organizationId =
      some { mm with role := Role.owner } := by
    rw [findMemberById_updateMemberRole, findMemberById_updateMemberRole, hM]
    simp [Ne.symm hid, hmmSpec.2.2]
  have hfinal_om : findMemberById
      (updateMemberRole (updateMemberRole
        (updateMemberRole (updateMemberRole db om.id organizationId Role.admin)
          mm.id organizationId Role.owner) mm.id organizationId Role.admin)
        om.id organizationId Role.owner) om.id organizationId = some om := by
    rw [findMemberById_updateMemberRole, findMemberById_updateMemberRole, hNew2]
    simp [hid, hm.2.1]
    rw [← hm.2.1, ← hm.2.2.2]
  have hfinal_mm : findMemberById
      (updateMemberRole (updateMemberRole
        (updateMemberRole (updateMemberRole db om.id organizationId Role.admin)
          mm.id organizationId Role.owner) mm.id organizationId Role.admin)
        om.id organizationId Role.owner) mm.id organizationId =
      some { mm with role := Role.admin } := by
    rw [findMemberById_updateMemberRole, findMemberById_updateMemberRole, hM2]
    simp [Ne.symm hid, hmmSpec.2.2]
  rw [h1]
  dsimp only
  rw [h2]
  dsimp only
  exact ⟨rfl, ⟨_, hmm2spec.1, hmm2spec.2.1, hmm2spec.2.2.2⟩, rfl, hfinal_om, hfinal_mm⟩

/-- C3 counterexample: starting from a viewer M, the round trip does not
restore M's original role — M ends as admin — and the state persisted
between the two role updates of the first call has zero owners. -/
theorem transferOwnership_roundTrip_cex :
    (transferOwnership exDB 1 1 20 []).error = none ∧
    (transferOwnership (transferOwnership exDB 1 1 20 []).db 1 2 10 []).error = none ∧
    findMemberById exDB 20 1 = some ⟨20, 1, 2, Role.viewer⟩ ∧
    findMemberById (transferOwnership (transferOwnership exDB 1 1 20 []).db
        1 2 10 []).db 20 1 = some ⟨20, 1, 2, Role.admin⟩ ∧
    Role.admin ≠ Role.viewer ∧
    ((transferOwnership exDB 1 1 20 []).states.head?).map (fun d =>
        (d.members.filter (fun m =>
          m.organization_id == 1 && m.role == Role.owner)).length) = some 0 := by
  decide

theorem transferOwnership_roundTrip_witness :
    findOwnerMember exDB 1 1 = some ⟨10, 1, 1, Role.owner⟩ ∧
    (∀ m ∈ exDB.members, m.organization_id = 1 → m.user_id = 2 →
      m = ⟨20, 1, 2, Role.viewer⟩) ∧
    ((transferOwnership exDB 1 1 20 []).error = none ∧
      (∃ m ∈ (transferOwnership exDB 1 1 20 []).db.members,
        m.organization_id = 1 ∧ m.role = Role.owner) ∧
      (transferOwnership (transferOwnership exDB 1 1 20 []).db 1 2 10 []).error = none ∧
      findMemberById (transferOwnership (transferOwnership exDB 1 1 20 []).db
          1 2 10 []).db 10 1 = some ⟨10, 1, 1, Role.owner⟩ ∧
      findMemberById (transferOwnership (transferOwnership exDB 1 1 20 []).db
          1 2 10 []).db 20 1 = some ⟨20, 1, 2, Role.admin⟩) :=
  ⟨by decide, by decide,
   transferOwnership_roundTrip exDB 1 1 2 ⟨10, 1, 1, Role.owner⟩ ⟨20, 1, 2, Role.viewer⟩
     (by decide) (by decide) (by decide) (by decide) (by decide) (by decide) (by decide)⟩

/-! ### C5 -/

/-- Fixture for the invitation claims: organization 1 with owner (user 1)
and an existing member (user 2, email m@x.com) who still has a pending,
unexpired invitation (id 5, token 77, expiring at 1000). -/
def invDB : DB :=
  ⟨[⟨10, 1, 1, Role.owner⟩, ⟨20, 1, 2, Role.user⟩],
   [⟨5, 1, 1, "m@x.com", Role.user, InvitationStatus.pending, 77, 1000, 0⟩],
   [⟨1, "o@x.com"⟩, ⟨2, "m@x.com"⟩], 100⟩

/-- C5 counterexample: for a pending, unexpired invitation whose invitee is
already a member, accepting by invitation id does not return a success
result — the `error` field is set — while accepting by token does. -/
theorem acceptInvitation_alreadyMember_cex :
    (acceptInvitation invDB 2 "m@x.com" 5 100 []).error =
      some "You are already a member of this organization" ∧
    (acceptInvitation invDB 2 "m@x.com" 5 100 []).organizationId = some 1 ∧
    (acceptInvitationByToken invDB 2 "m@x.com" 77 100 []).error = none := by
  decide

/-- C5 (amended): for every pending, unexpired invitation whose invitee is
already a member, both acceptance paths short-circuit: they mark this and
every other pending invitation for the same (organization, email) pair as
accepted (the sweep) and create no membership, and both results carry the
organizationId; but only the token path reports success — the by-id path
returns the error "You are already a member of this organization". -/
theorem acceptInvitation_alreadyMember
    (db : DB) (userId invId now : Nat) (userEmail : String) (inv : Invitation)
    (hFindId : db.invitations.find? (fun i =>
        i.id == invId && i.invitee_email == userEmail &&
        i.status == InvitationStatus.pending) = some inv)
    (hFindTok : db.invitations.find? (fun i =>
        i.token == inv.token && i.status == InvitationStatus.pending) = some inv)
    (hNotExp : ¬ inv.expires_at < now)
    (hMember : (findMemberByUser db inv.organization_id userId).isSome = true) :
    (acceptInvitation db userId userEmail invId now []).error =
      some "You are already a member of this organization" ∧
    (acceptInvitation db userId userEmail invId now []).organizationId =
      some inv.organization_id ∧
    (acceptInvitation db userId userEmail invId now []).db =
      sweepAcceptInvitations db inv.organization_id userEmail ∧
    (acceptInvitation db userId userEmail invId now []).db.members = db.members ∧
    (acceptInvitationByToken db userId userEmail inv.token now []).error = none ∧
    (acceptInvitationByToken db userId userEmail inv.token now []).organizationId =
      some inv.organization_id ∧
    (acceptInvitationByToken db userId userEmail inv.token now []).db =
      sweepAcceptInvitations db inv.organization_id userEmail := by
  have hp := List.find?_some hFindId
  simp only [Bool.and_eq_true, beq_iff_eq] at hp
  have hEmailEq : (strLower inv.invitee_email == strLower userEmail) = true := by
    simp [hp.1.2]
  unfold acceptInvitation acceptInvitationByToken
  rw [hFindId, hFindTok]
  simp [hMember, hNotExp, hEmailEq, takeFault, sweepAcceptInvitations]

theorem acceptInvitation_alreadyMember_witness :
    invDB.invitations.find? (fun i =>
        i.id == 5 && i.invitee_email == "m@x.com" &&
        i.status == InvitationStatus.pending) =
      some ⟨5, 1, 1, "m@x.com", Role.user, InvitationStatus.pending, 77, 1000, 0⟩ ∧
    ¬ (1000 : Nat) < 100 ∧
    (findMemberByUser invDB 1 2).isSome = true ∧
    ((acceptInvitation invDB 2 "m@x.com" 5 100 []).error =
        some "You are already a member of this organization" ∧
      (acceptInvitation invDB 2 "m@x.com" 5 100 []).organizationId = some 1 ∧
      (acceptInvitation invDB 2 "m@x.com" 5 100 []).db =
        sweepAcceptInvitations invDB 1 "m@x.com" ∧
      (acceptInvitation invDB 2 "m@x.com" 5 100 []).db.members = invDB.members ∧
      (acceptInvitationByToken invDB 2 "m@x.com" 77 100 []).error = none ∧
      (acceptInvitationByToken invDB 2 "m@x.com" 77 100 []).organizationId = some 1 ∧
      (acceptInvitationByToken invDB 2 "m@x.com" 77 100 []).db =
        sweepAcceptInvitations invDB 1 "m@x.com") :=
  ⟨by decide, by decide, by decide,
   acceptInvitation_alreadyMember invDB 2 5 100 "m@x.com"
     ⟨5, 1, 1, "m@x.com", Role.user, InvitationStatus.pending, 77, 1000, 0⟩
     (by decide) (by decide) (by decide) (by decide)⟩

/-! ### C6 -/

theorem isEmpty_false_of_mem {α : Type _} {l : List α} {a : α} (h : a ∈ l) :
    l.isEmpty = false := by
  cases l
  · cases h
  · rfl

/-- Fixture: organization 1 with owner (user 1); user 2 (email m@x.com) is
not a member and holds a pending, unexpired invitation (id 5, token 77). -/
def invDB2 : DB :=
  ⟨[⟨10, 1, 1, Role.owner⟩],
   [⟨5, 1, 1, "m@x.com", Role.user, InvitationStatus.pending, 77, 1000, 0⟩],
   [⟨1, "o@x.com"⟩, ⟨2, "m@x.com"⟩], 100⟩

/-- C6 counterexample: calling `acceptInvitationByToken` twice with the same
token does not yield success both times — the second call fails with
"Invitation not found or has already been used". -/
theorem acceptInvitationByToken_twice_cex :
    (acceptInvitationByToken invDB2 2 "m@x.com" 77 100 []).error = none ∧
    (acceptInvitationByToken (acceptInvitationByToken invDB2 2 "m@x.com" 77 100 []).db
        2 "m@x.com" 77 100 []).error =
      some "Invitation not found or has already been used" := by
  decide

/-- C6 (amended): for a valid invitation (pending, unexpired, matching
email, token unique, actor not yet a member), the first
`acceptInvitationByToken` succeeds and creates exactly one membership for
the (organization, user) pair; the second call with the same token changes
nothing — but it returns the error "Invitation not found or has already
been used" rather than a second success. -/
theorem acceptInvitationByToken_twice
    (db : DB) (userId tok now : Nat) (userEmail : String) (inv : Invitation)
    (hFind : db.invitations.find? (fun i =>
        i.token == tok && i.status == InvitationStatus.pending) = some inv)
    (hEmail : strLower inv.invitee_email = strLower userEmail)
    (hNotExp : ¬ inv.expires_at < now)
    (hNotMember : findMemberByUser db inv.organization_id userId = none)
    (hTok : ∀ i ∈ db.invitations, i.token = tok → i = inv) :
    (acceptInvitationByToken db userId userEmail tok now []).error = none ∧
    (acceptInvitationByToken db userId userEmail tok now []).organizationId =
      some inv.organization_id ∧
    ((acceptInvitationByToken db userId userEmail tok now []).db.members.filter
        (fun m => m.organization_id == inv.organization_id &&
          m.user_id == userId)).length = 1 ∧
    (acceptInvitationByToken (acceptInvitationByToken db userId userEmail tok now []).db
        userId userEmail tok now []).error =
      some "Invitation not found or has already been used" ∧
    (acceptInvitationByToken (acceptInvitationByToken db userId userEmail tok now []).db
        userId userEmail tok now []).db =
      (acceptInvitationByToken db userId userEmail tok now []).db := by
  have hmem := List.mem_of_find?_eq_some hFind
  have hp := List.find?_some hFind
  simp only [Bool.and_eq_true, beq_iff_eq] at hp
  have hEmailEq : (strLower inv.invitee_email == strLower userEmail) = true := by
    simp [hEmail]
  have hMemF : (findMemberByUser db inv.organization_id userId).isSome = false := by
    rw [hNotMember]; rfl
  have hne : ((insertMember db inv.organization_id userId inv.role).invitations.filter
      (fun i => i.token == tok)).isEmpty = false := by
    have hmm : inv ∈ (insertMember db inv.organization_id userId inv.role).invitations.filter
        (fun i => i.token == tok) :=
      List.mem_filter.mpr ⟨hmem, by simp [hp.1]⟩
    exact isEmpty_false_of_mem hmm
  have hout1 : acceptInvitationByToken db userId userEmail tok now [] =
      ⟨sweepAcceptInvitations
          (setInvitationStatusByToken (insertMember db inv.organization_id userId inv.role)
            tok InvitationStatus.accepted) inv.organization_id userEmail,
        none, some inv.organization_id⟩ := by
    unfold acceptInvitationByToken
    rw [hFind]
    simp [hEmailEq, hNotExp, hMemF, takeFault, hne]
  have hcount : ((sweepAcceptInvitations
      (setInvitationStatusByToken (insertMember db inv.organization_id userId inv.role)
        tok InvitationStatus.accepted) inv.organization_id userEmail).members.filter
        (fun m => m.organization_id == inv.organization_id &&
          m.user_id == userId)).length = 1 := by
    have hms : (sweepAcceptInvitations
        (setInvitationStatusByToken (insertMember db inv.organization_id userId inv.role)
          tok InvitationStatus.accepted) inv.organization_id userEmail).members =
        db.members ++ [⟨db.nextId, inv.organization_id, userId, inv.role⟩] := rfl
    rw [hms, List.filter_append]
    have hz : db.members.filter (fun m => m.organization_id == inv.organization_id &&
        m.user_id == userId) = [] := by
      rw [List.filter_eq_nil_iff]
      intro a ha
      exact List.find?_eq_none.mp hNotMember a ha
    rw [hz]
    simp
  have hfind2 : (sweepAcceptInvitations
      (setInvitationStatusByToken (insertMember db inv.organization_id userId inv.role)
        tok InvitationStatus.accepted) inv.organization_id userEmail).invitations.find?
        (fun i => i.token == tok && i.status == InvitationStatus.pending) = none := by
    simp only [sweepAcceptInvitations, setInvitationStatusByToken, insertMember]
    rw [List.find?_eq_none]
    intro y hy
    rw [List.mem_map] at hy
    obtain ⟨x1, hx1, rfl⟩ := hy
    rw [List.mem_map] at hx1
    obtain ⟨x, hx, rfl⟩ := hx1
    by_cases hxt : x.token = tok
    · have hxe := hTok x hx hxt
      subst hxe
      simp [hp.1]
    · by_cases hsw : (x.organization_id == inv.organization_id &&
          x.invitee_email == userEmail && x.status == InvitationStatus.pending) = true <;>
        simp [hxt, hsw]
  have hout2 : acceptInvitationByToken
      (sweepAcceptInvitations
        (setInvitationStatusByToken (insertMember db inv.organization_id userId inv.role)
          tok InvitationStatus.accepted) inv.organization_id userEmail)
      userId userEmail tok now [] =
      ⟨sweepAcceptInvitations
        (setInvitationStatusByToken (insertMember db inv.organization_id userId inv.role)
          tok InvitationStatus.accepted) inv.organization_id userEmail,
       some "Invitation not found or has already been used", none⟩ := by
    unfold acceptInvitationByToken
    rw [hfind2]
  rw [hout1]
  dsimp only
  rw [hout2]
  exact ⟨rfl, rfl, hcount, rfl, rfl⟩

theorem acceptInvitationByToken_twice_witness :
    invDB2.invitations.find? (fun i =>
        i.token == 77 && i.status == InvitationStatus.pending) =
      some ⟨5, 1, 1, "m@x.com", Role.user, InvitationStatus.pending, 77, 1000, 0⟩ ∧
    ¬ (1000 : Nat) < 100 ∧
    findMemberByUser invDB2 1 2 = none ∧
    (∀ i ∈ invDB2.invitations, i.token = 77 →
      i = ⟨5, 1, 1, "m@x.com", Role.user, InvitationStatus.pending, 77, 1000, 0⟩) ∧
    ((acceptInvitationByToken invDB2 2 "m@x.com" 77 100 []).error = none ∧
      (acceptInvitationByToken invDB2 2 "m@x.com" 77 100 []).organizationId = some 1 ∧
      ((acceptInvitationByToken invDB2 2 "m@x.com" 77 100 []).db.members.filter
          (fun m => m.organization_id == 1 && m.user_id == 2)).length = 1 ∧
      (acceptInvitationByToken (acceptInvitationByToken invDB2 2 "m@x.com" 77 100 []).db
          2 "m@x.com" 77 100 []).error =
        some "Invitation not found or has already been used" ∧
      (acceptInvitationByToken (acceptInvitationByToken invDB2 2 "m@x.com" 77 100 []).db
          2 "m@x.com" 77 100 []).db =
        (acceptInvitationByToken invDB2 2 "m@x.com" 77 100 []).db) :=
  ⟨by decide, by decide, by decide, by decide,
   acceptInvitationByToken_twice invDB2 2 77 100 "m@x.com"
     ⟨5, 1, 1, "m@x.com", Role.user, InvitationStatus.pending, 77, 1000, 0⟩
     (by decide) (by decide) (by decide) (by decide) (by decide)⟩

/-! ### C7 -/

/-- Fixture: user 2 (email m@x.com) accepted invitation 5 to organization 1,
was then removed (no membership row remains), and was re-invited with the
new pending, unexpired invitation 6. -/
def reinviteDB : DB :=
  ⟨[⟨10, 1, 1, Role.owner⟩],
   [⟨5, 1, 1, "m@x.com", Role.user, InvitationStatus.accepted, 77, 1000, 0⟩,
    ⟨6, 1, 1, "m@x.com", Role.user, InvitationStatus.pending, 88, 5000, 2000⟩],
   [⟨1, "o@x.com"⟩, ⟨2, "m@x.com"⟩], 100⟩

/-- C7 counterexample: after a remove-and-re-invite cycle the new pending
invitation for organization 1 is not listed — `getPendingInvitations`
returns the empty list, although the same pending invitation is listed when
the old accepted artifact is absent. -/
theorem getPendingInvitations_reinvite_cex :
    getPendingInvitations reinviteDB 2 "m@x.com" 2500 = [] ∧
    (⟨6, 1, 1, "m@x.com", Role.user, InvitationStatus.pending, 88, 5000, 2000⟩ : Invitation)
      ∈ reinviteDB.invitations ∧
    getPendingInvitations invDB2 2 "m@x.com" 500 =
      [⟨5, 1, 1, "m@x.com", Role.user, InvitationStatus.pending, 77, 1000, 0⟩] := by
  decide

theorem getPendingInvitations_eq (db : DB) (userId : Nat) (userEmail : String) (now : Nat) :
    getPendingInvitations db userId userEmail now =
      (db.invitations.filter (fun i =>
        i.invitee_email == userEmail && i.status == InvitationStatus.pending &&
        decide (now < i.expires_at))).filter (fun inv =>
          !(((db.members.filter (fun m => m.user_id == userId &&
              ((db.invitations.filter (fun i =>
                i.invitee_email == userEmail && i.status == InvitationStatus.pending &&
                decide (now < i.expires_at))).map Invitation.organization_id).contains
                m.organization_id)).map Membership.organization_id).contains
            inv.organization_id) &&
          !(((db.invitations.filter (fun i =>
              i.invitee_email == userEmail && i.status == InvitationStatus.accepted &&
              ((db.invitations.filter (fun i =>
                i.invitee_email == userEmail && i.status == InvitationStatus.pending &&
                decide (now < i.expires_at))).map Invitation.organization_id).contains
                i.organization_id)).map Invitation.organization_id).contains
            inv.organization_id)) := by
  unfold getPendingInvitations
  by_cases hde : (db.invitations.filter (fun i =>
      i.invitee_email == userEmail && i.status == InvitationStatus.pending &&
      decide (now < i.expires_at))).isEmpty = true
  · have hnil : db.invitations.filter (fun i =>
        i.invitee_email == userEmail && i.status == InvitationStatus.pending &&
        decide (now < i.expires_at)) = [] := by simpa using hde
    simp [hnil]
  · simp [hde]

/-- C7 (amended): `getPendingInvitations` excludes the stale accepted
artifacts (only pending, unexpired invitations are selected), but it also
excludes the new pending invitation of a removed-then-re-invited user:
every organization for which the user's email holds an invitation with
status `accepted` is filtered out wholesale, so no invitation for that
organization — including a genuinely new pending one — is ever listed. -/
theorem getPendingInvitations_excludes_acceptedOrg
    (db : DB) (userId now : Nat) (userEmail : String) (acc : Invitation)
    (hAcc : acc ∈ db.invitations) (hAccEmail : acc.invitee_email = userEmail)
    (hAccStatus : acc.status = InvitationStatus.accepted) :
    ∀ j ∈ getPendingInvitations db userId userEmail now,
      j.organization_id ≠ acc.organization_id := by
  intro j hj heq
  rw [getPendingInvitations_eq] at hj
  rw [List.mem_filter] at hj
  obtain ⟨hjdata, hjpass⟩ := hj
  simp only [Bool.and_eq_true, Bool.not_eq_true'] at hjpass
  have horg : acc.organization_id ∈ (db.invitations.filter (fun i =>
      i.invitee_email == userEmail && i.status == InvitationStatus.pending &&
      decide (now < i.expires_at))).map Invitation.organization_id := by
    rw [← heq]
    exact List.mem_map_of_mem _ hjdata
  have hmemmap : j.organization_id ∈ ((db.invitations.filter (fun i =>
      i.invitee_email == userEmail && i.status == InvitationStatus.accepted &&
      ((db.invitations.filter (fun i =>
        i.invitee_email == userEmail && i.status == InvitationStatus.pending &&
        decide (now < i.expires_at))).map Invitation.organization_id).contains
        i.organization_id)).map Invitation.organization_id) := by
    rw [heq]
    apply List.mem_map_of_mem
    apply List.mem_filter.mpr
    refine ⟨hAcc, ?_⟩
    simp only [Bool.and_eq_true, beq_iff_eq]
    refine ⟨⟨hAccEmail, hAccStatus⟩, ?_⟩
    simpa [List.contains] using horg
  have hcontains : (((db.invitations.filter (fun i =>
      i.invitee_email == userEmail && i.status == InvitationStatus.accepted &&
      ((db.invitations.filter (fun i =>
        i.invitee_email == userEmail && i.status == InvitationStatus.pending &&
        decide (now < i.expires_at))).map Invitation.organization_id).contains
        i.organization_id)).map Invitation.organization_id).contains
      j.organization_id) = true := by
    simpa [List.contains] using hmemmap
  rw [hjpass.2] at hcontains
  simp at hcontains

theorem getPendingInvitations_excludes_acceptedOrg_witness :
    (⟨5, 1, 1, "m@x.com", Role.user, InvitationStatus.accepted, 77, 1000, 0⟩ : Invitation)
      ∈ reinviteDB.invitations ∧
    (∀ j ∈ getPendingInvitations reinviteDB 2 "m@x.com" 2500,
      j.organization_id ≠ 1) :=
  ⟨by decide,
   getPendingInvitations_excludes_acceptedOrg reinviteDB 2 2500 "m@x.com"
     ⟨5, 1, 1, "m@x.com", Role.user, InvitationStatus.accepted, 77, 1000, 0⟩
     (by decide) (by decide) (by decide)⟩

/-! ### C8 -/

/-- Between two database states: every accepted invitation of the first
still exists (by id) with status `accepted` in the second. -/
def acceptedPreserved (db db2 : DB) : Prop :=
  ∀ inv ∈ db.invitations, inv.status = InvitationStatus.accepted →
    ∃ inv2 ∈ db2.invitations, inv2.id = inv.id ∧
      inv2.status = InvitationStatus.accepted

theorem acceptedPreserved_refl (db : DB) : acceptedPreserved db db :=
  fun inv hmem hst => ⟨inv, hmem, rfl, hst⟩

theorem acceptedPreserved_of_eq {db db2 : DB}
    (h : db2.invitations = db.invitations) : acceptedPreserved db db2 :=
  fun inv hmem hst => ⟨inv, h ▸ hmem, rfl, hst⟩

theorem acceptedPreserved_map {db db2 : DB} (f : Invitation → Invitation)
    (h : db2.invitations = db.invitations.map f)
    (hf : ∀ i : Invitation, i.status = InvitationStatus.accepted →
      (f i).id = i.id ∧ (f i).status = InvitationStatus.accepted) :
    acceptedPreserved db db2 := by
  intro inv hmem hst
  refine ⟨f inv, ?_, (hf inv hst).1, (hf inv hst).2⟩
  rw [h]
  exact List.mem_map_of_mem f hmem

theorem acceptedPreserved_trans {a b c : DB}
    (h1 : acceptedPreserved a b) (h2 : acceptedPreserved b c) :
    acceptedPreserved a c := by
  intro inv hmem hst
  obtain ⟨j, hj, hjid, hjst⟩ := h1 inv hmem hst
  obtain ⟨k, hk, hkid, hkst⟩ := h2 j hj hjst
  exact ⟨k, hk, by rw [hkid, hjid], hkst⟩

theorem acceptedPreserved_setById_accepted (db : DB) (invId : Nat) :
    acceptedPreserved db (setInvitationStatusById db invId InvitationStatus.accepted) := by
  apply acceptedPreserved_map _ rfl
  intro i hi
  by_cases h : (i.id == invId) = true <;> simp [h, hi]

theorem acceptedPreserved_setByToken_accepted (db : DB) (tok : Nat) :
    acceptedPreserved db (setInvitationStatusByToken db tok InvitationStatus.accepted) := by
  apply acceptedPreserved_map _ rfl
  intro i hi
  by_cases h : (i.token == tok) = true <;> simp [h, hi]

theorem acceptedPreserved_sweep (db : DB) (organizationId : Nat) (email : String) :
    acceptedPreserved db (sweepAcceptInvitations db organizationId email) := by
  apply acceptedPreserved_map _ rfl
  intro i hi
  by_cases h : (i.organization_id == organizationId && i.invitee_email == email &&
      i.status == InvitationStatus.pending) = true <;> simp [h, hi]

theorem acceptedPreserved_setById_of_ne (db : DB) (invId : Nat) (s : InvitationStatus)
    (h : ∀ i ∈ db.invitations, i.status = InvitationStatus.accepted → i.id ≠ invId) :
    acceptedPreserved db (setInvitationStatusById db invId s) := by
  intro inv hmem hst
  refine ⟨inv, ?_, rfl, hst⟩
  have hcond : (inv.id == invId) = false := by simp [h inv hmem hst]
  have himg := List.mem_map_of_mem
    (fun i : Invitation => if i.id == invId then { i with status := s } else i) hmem
  simp only [hcond, Bool.false_eq_true, if_false] at himg
  exact himg

theorem acceptedPreserved_setByToken_of_ne (db : DB) (tok : Nat) (s : InvitationStatus)
    (h : ∀ i ∈ db.invitations, i.status = InvitationStatus.accepted → i.token ≠ tok) :
    acceptedPreserved db (setInvitationStatusByToken db tok s) := by
  intro inv hmem hst
  refine ⟨inv, ?_, rfl, hst⟩
  have hcond : (inv.token == tok) = false := by simp [h inv hmem hst]
  have himg := List.mem_map_of_mem
    (fun i : Invitation => if i.token == tok then { i with status := s } else i) hmem
  simp only [hcond, Bool.false_eq_true, if_false] at himg
  exact himg

theorem removeMember_acceptedPreserved (db : DB) (organizationId actorUserId memberId : Nat)
    (faults : List Bool) :
    acceptedPreserved db (removeMember db organizationId actorUserId memberId faults).1 := by
  unfold removeMember
  dsimp only
  split
  · exact acceptedPreserved_refl db
  split
  · exact acceptedPreserved_refl db
  split
  · exact acceptedPreserved_refl db
  split
  · exact acceptedPreserved_refl db
  split
  · exact acceptedPreserved_of_eq rfl
  next email hemail =>
    split
    · exact acceptedPreserved_of_eq rfl
    split
    · apply acceptedPreserved_map _ rfl
      intro i hi
      by_cases h2 : (i.organization_id == organizationId && i.invitee_email == email &&
          ((List.map Invitation.id
            (List.filter (fun i =>
              i.organization_id == organizationId && i.invitee_email == email &&
                i.status == InvitationStatus.accepted) db.invitations)).contains i.id)) = true
      · rw [if_pos h2]
        exact ⟨rfl, rfl⟩
      · rw [if_neg h2]
        exact ⟨rfl, hi⟩
    · exact acceptedPreserved_of_eq rfl


theorem acceptInvitation_acceptedPreserved (db : DB) (userId invId now : Nat)
    (userEmail : String) (faults : List Bool)
    (hIds : ∀ i ∈ db.invitations, ∀ j ∈ db.invitations, i.id = j.id → i = j) :
    acceptedPreserved db (acceptInvitation db userId userEmail invId now faults).db := by
  unfold acceptInvitation
  dsimp only
  split
  · exact acceptedPreserved_refl db
  next invitation heq =>
    have hinvMem := List.mem_of_find?_eq_some heq
    have hinvP := List.find?_some heq
    simp only [Bool.and_eq_true, beq_iff_eq] at hinvP
    have hne : ∀ i ∈ db.invitations, i.status = InvitationStatus.accepted → i.id ≠ invId := by
      intro i hi hacc hieq
      have hii := hIds i hi invitation hinvMem (by rw [hieq, hinvP.1.1])
      rw [hii, hinvP.2] at hacc
      cases hacc
    split
    · split
      · exact acceptedPreserved_setById_of_ne db invId InvitationStatus.expired hne
      · exact acceptedPreserved_refl db
    split
    · split
      · exact acceptedPreserved_sweep db invitation.organization_id userEmail
      · exact acceptedPreserved_refl db
    split
    · exact acceptedPreserved_refl db
    split
    · exact acceptedPreserved_of_eq rfl
    split
    · exact acceptedPreserved_of_eq rfl
    · have htr12 : acceptedPreserved db
          (setInvitationStatusById (insertMember db invitation.organization_id userId invitation.role)
            invId InvitationStatus.accepted) :=
        acceptedPreserved_trans (acceptedPreserved_of_eq rfl)
          (acceptedPreserved_setById_accepted
            (insertMember db invitation.organization_id userId invitation.role) invId)
      split
      · exact acceptedPreserved_trans htr12
          (acceptedPreserved_sweep
            (setInvitationStatusById (insertMember db invitation.organization_id userId invitation.role)
              invId InvitationStatus.accepted) invitation.organization_id userEmail)
      · exact htr12


theorem acceptInvitationByToken_acceptedPreserved (db : DB) (userId tok now : Nat)
    (userEmail : String) (faults : List Bool)
    (hToks : ∀ i ∈ db.invitations, ∀ j ∈ db.invitations, i.token = j.token → i = j) :
    acceptedPreserved db (acceptInvitationByToken db userId userEmail tok now faults).db := by
  unfold acceptInvitationByToken
  dsimp only
  split
  · exact acceptedPreserved_refl db
  next invitation heq =>
    have hinvMem := List.mem_of_find?_eq_some heq
    have hinvP := List.find?_some heq
    simp only [Bool.and_eq_true, beq_iff_eq] at hinvP
    have hne : ∀ i ∈ db.invitations, i.status = InvitationStatus.accepted → i.token ≠ tok := by
      intro i hi hacc hieq
      have hii := hToks i hi invitation hinvMem (by rw [hieq, hinvP.1])
      rw [hii, hinvP.2] at hacc
      cases hacc
    split
    · exact acceptedPreserved_refl db
    split
    · split
      · exact acceptedPreserved_setByToken_of_ne db tok InvitationStatus.expired hne
      · exact acceptedPreserved_refl db
    split
    · split
      · exact acceptedPreserved_sweep db invitation.organization_id userEmail
      · exact acceptedPreserved_refl db
    split
    · exact acceptedPreserved_refl db
    split
    · exact acceptedPreserved_of_eq rfl
    split
    · exact acceptedPreserved_of_eq rfl
    · have htr12 : acceptedPreserved db
          (setInvitationStatusByToken (insertMember db invitation.organization_id userId invitation.role)
            tok InvitationStatus.accepted) :=
        acceptedPreserved_trans (acceptedPreserved_of_eq rfl)
          (acceptedPreserved_setByToken_accepted
            (insertMember db invitation.organization_id userId invitation.role) tok)
      split
      · exact acceptedPreserved_trans htr12
          (acceptedPreserved_sweep
            (setInvitationStatusByToken (insertMember db invitation.organization_id userId invitation.role)
              tok InvitationStatus.accepted) invitation.organization_id userEmail)
      · exact htr12

theorem declineInvitation_acceptedPreserved (db : DB) (userEmail : String) (invId : Nat)
    (faults : List Bool)
    (hIds : ∀ i ∈ db.invitations, ∀ j ∈ db.invitations, i.id = j.id → i = j) :
    acceptedPreserved db (declineInvitation db userEmail invId faults).1 := by
  unfold declineInvitation
  dsimp only
  split
  · exact acceptedPreserved_refl db
  next invitation heq =>
    have hinvMem := List.mem_of_find?_eq_some heq
    have hinvP := List.find?_some heq
    simp only [Bool.and_eq_true, beq_iff_eq] at hinvP
    have hne : ∀ i ∈ db.invitations, i.status = InvitationStatus.accepted → i.id ≠ invId := by
      intro i hi hacc hieq
      have hii := hIds i hi invitation hinvMem (by rw [hieq, hinvP.1.1])
      rw [hii, hinvP.2] at hacc
      cases hacc
    split
    · exact acceptedPreserved_refl db
    · exact acceptedPreserved_setById_of_ne db invId InvitationStatus.expired hne

theorem cancelInvitation_acceptedPreserved (db : DB) (organizationId actorUserId invId : Nat)
    (faults : List Bool)
    (hIds : ∀ i ∈ db.invitations, ∀ j ∈ db.invitations, i.id = j.id → i = j) :
    acceptedPreserved db (cancelInvitation db organizationId actorUserId invId faults).1 := by
  unfold cancelInvitation
  dsimp only
  split
  · exact acceptedPreserved_refl db
  split
  · exact acceptedPreserved_refl db
  next invitation heq =>
    have hinvMem := List.mem_of_find?_eq_some heq
    have hinvP := List.find?_some heq
    simp only [Bool.and_eq_true, beq_iff_eq] at hinvP
    have hne : ∀ i ∈ db.invitations, i.status = InvitationStatus.accepted → i.id ≠ invId := by
      intro i hi hacc hieq
      have hii := hIds i hi invitation hinvMem (by rw [hieq, hinvP.1.1])
      rw [hii, hinvP.2] at hacc
      cases hacc
    split
    · exact acceptedPreserved_refl db
    split
    · exact acceptedPreserved_refl db
    split
    · exact acceptedPreserved_refl db
    · exact acceptedPreserved_setById_of_ne db invId InvitationStatus.expired hne


/-- C8: once an invitation is accepted it never transitions to any other
status under the membership and invitation operations — in particular,
removing the resulting member leaves every accepted invitation for that
(organization, email) pair accepted (never resurrected as pending); the
same preservation holds for both acceptance paths, decline and cancel,
given the primary-key and unique-token constraints on invitations. -/
theorem accepted_invitations_never_revert
    (db : DB) (organizationId actorUserId memberId userId invId tok now : Nat)
    (userEmail : String) (faults : List Bool)
    (hIds : ∀ i ∈ db.invitations, ∀ j ∈ db.invitations, i.id = j.id → i = j)
    (hToks : ∀ i ∈ db.invitations, ∀ j ∈ db.invitations, i.token = j.token → i = j) :
    acceptedPreserved db (removeMember db organizationId actorUserId memberId faults).1 ∧
    acceptedPreserved db (acceptInvitation db userId userEmail invId now faults).db ∧
    acceptedPreserved db (acceptInvitationByToken db userId userEmail tok now faults).db ∧
    acceptedPreserved db (declineInvitation db userEmail invId faults).1 ∧
    acceptedPreserved db (cancelInvitation db organizationId actorUserId invId faults).1 :=
  ⟨removeMember_acceptedPreserved db organizationId actorUserId memberId faults,
   acceptInvitation_acceptedPreserved db userId invId now userEmail faults hIds,
   acceptInvitationByToken_acceptedPreserved db userId tok now userEmail faults hToks,
   declineInvitation_acceptedPreserved db userEmail invId faults hIds,
   cancelInvitation_acceptedPreserved db organizationId actorUserId invId faults hIds⟩

theorem accepted_invitations_never_revert_witness :
    (∀ i ∈ reinviteDB.invitations, ∀ j ∈ reinviteDB.invitations, i.id = j.id → i = j) ∧
    (∀ i ∈ reinviteDB.invitations, ∀ j ∈ reinviteDB.invitations, i.token = j.token → i = j) ∧
    (acceptedPreserved reinviteDB (removeMember reinviteDB 1 1 10 []).1 ∧
      acceptedPreserved reinviteDB (acceptInvitation reinviteDB 2 "m@x.com" 6 2500 []).db ∧
      acceptedPreserved reinviteDB (acceptInvitationByToken reinviteDB 2 "m@x.com" 88 2500 []).db ∧
      acceptedPreserved reinviteDB (declineInvitation reinviteDB "m@x.com" 6 []).1 ∧
      acceptedPreserved reinviteDB (cancelInvitation reinviteDB 1 1 6 []).1) :=
  ⟨by decide, by decide,
   accepted_invitations_never_revert reinviteDB 1 1 10 2 6 88 2500 "m@x.com" []
     (by decide) (by decide)⟩


/-! ### C10 -/

/-- C10: `inviteMember` normalizes the submitted invitee email before
validation and storage: every successfully created invitation stores
`invitee_email` equal to the submitted email lowercased and trimmed, and is
created with status `pending`.  (The accept-by-id lookup then matches this
stored value against the identity provider email exactly.) -/
theorem inviteMember_normalizes_email
    (db : DB) (organizationId actorUserId now newToken : Nat)
    (rawEmail roleStr : String) (faults : List Bool)
    (hOk : (inviteMember db organizationId actorUserId rawEmail roleStr
        now newToken faults).error = none) :
    ∃ inv : Invitation,
      (inviteMember db organizationId actorUserId rawEmail roleStr
        now newToken faults).invitationId = some inv.id ∧
      inv ∈ (inviteMember db organizationId actorUserId rawEmail roleStr
        now newToken faults).db.invitations ∧
      inv.invitee_email = strTrim (strLower rawEmail) ∧
      inv.status = InvitationStatus.pending := by
  unfold inviteMember at hOk ⊢
  dsimp only at hOk ⊢
  revert hOk
  split <;> intro hOk
  · exact Option.noConfusion hOk
  revert hOk
  split <;> intro hOk
  · exact Option.noConfusion hOk
  revert hOk
  split
  · intro hOk
    exact Option.noConfusion hOk
  next invitedRole hrole =>
    intro hOk
    revert hOk
    split <;> intro hOk
    · exact Option.noConfusion hOk
    revert hOk
    split <;> intro hOk
    · exact Option.noConfusion hOk
    revert hOk
    split <;> intro hOk
    · exact Option.noConfusion hOk
    revert hOk
    split <;> intro hOk
    · exact Option.noConfusion hOk
    revert hOk
    split <;> intro hOk
    · exact Option.noConfusion hOk
    exact ⟨⟨db.nextId, organizationId, actorUserId, normalizeEmail rawEmail, invitedRole,
      InvitationStatus.pending, newToken, now + 7 * 86400000, now⟩, rfl, by simp, rfl, rfl⟩


theorem inviteMember_normalizes_email_witness :
    (inviteMember invDB2 1 1 "  New.USER@X.com " "user" 50 99 []).error = none ∧
    (∃ inv : Invitation,
      (inviteMember invDB2 1 1 "  New.USER@X.com " "user" 50 99 []).invitationId =
        some inv.id ∧
      inv ∈ (inviteMember invDB2 1 1 "  New.USER@X.com " "user" 50 99 []).db.invitations ∧
      inv.invitee_email = strTrim (strLower "  New.USER@X.com ") ∧
      inv.status = InvitationStatus.pending) :=
  ⟨by decide,
   inviteMember_normalizes_email invDB2 1 1 50 99 "  New.USER@X.com " "user" []
     (by decide)⟩


end OrgManager
